import Mathlib

/-!
Shallow embedding of `md2conf/matcher.py`: the `MatcherOptions` dataclass,
the `Matcher` class (rule loading, `extension_matches`, `is_excluded`,
`is_included`, `filter`, `scandir`) and the Python standard-library string
and glob operations they call (`str.startswith`, `str.endswith`,
`str.splitlines`, `fnmatch.fnmatch`).

Python strings are modelled as Lean `String`s, with the Python operations
defined over their character lists.  Filesystem interaction is modelled by
passing the outcome of the external call explicitly: the rules-file content
is an `Option String` (`none` when `os.path.exists` is false), and the
`os.scandir` listing is an `Except` of the entry names.
-/

/-- `listIsPre p s` is true iff the character list `p` is an initial
segment of the character list `s`. -/
def listIsPre : List Char → List Char → Bool
  | [], _ => true
  | _ :: _, [] => false
  | p :: ps, c :: cs => p == c && listIsPre ps cs

namespace Py

/-- Python `s.startswith(p)`: `p` is a prefix of `s`. -/
def startswith (s p : String) : Bool :=
  listIsPre p.toList s.toList

/-- Python `s.endswith(p)`: `p` is a suffix of `s`. -/
def endswith (s p : String) : Bool :=
  listIsPre p.toList.reverse s.toList.reverse

/-- A character at which Python `str.splitlines` breaks a line. -/
def lineBoundary (c : Char) : Bool :=
  c == '\n' || c == '\r' || c == '\x0b' || c == '\x0c' ||
  c == '\x1c' || c == '\x1d' || c == '\x1e' || c == '\x85' ||
  c == '\u2028' || c == '\u2029'

/-- Worker for `splitlines`: `acc` holds the current line reversed;
`\r\n` counts as a single boundary and a trailing boundary produces no
final empty line. -/
def splitlinesAux : List Char → List Char → List String
  | [], acc => if acc.isEmpty then [] else [String.mk acc.reverse]
  | '\r' :: '\n' :: rest, acc => String.mk acc.reverse :: splitlinesAux rest []
  | c :: rest, acc =>
    if lineBoundary c then String.mk acc.reverse :: splitlinesAux rest []
    else splitlinesAux rest (c :: acc)

/-- Python `s.splitlines()`. -/
def splitlines (s : String) : List String :=
  splitlinesAux s.toList []

end Py

/-- One element of a parsed `[...]` set of a glob pattern: a literal
character or an inclusive code-point range `lo-hi`. -/
inductive SetItem where
  | ch : Char → SetItem
  | range : Char → Char → SetItem
deriving DecidableEq, Repr

/-- A token of a compiled glob pattern, mirroring what
`fnmatch.translate` emits: a literal character, `?`, `*`, or a
(possibly negated) character set with its raw contents. -/
inductive GlobTok where
  | lit : Char → GlobTok
  | any1 : GlobTok
  | star : GlobTok
  | set : Bool → List Char → GlobTok
deriving DecidableEq, Repr

/-- Parse the part of a glob pattern following a `[`.  Returns the
negation flag, the raw set contents and the remaining pattern after the
closing `]`, or `none` when no closing `]` exists (in which case the `[`
is a literal, as in `fnmatch.translate`).  A leading `!` negates; a `]`
as the first content character is literal. -/
def parseSet (cs : List Char) : Option (Bool × List Char × List Char) :=
  let p := match cs with
    | '!' :: rest => (true, rest)
    | _ => (false, cs)
  match p.2 with
  | ']' :: rest =>
    match rest.findIdx? (· == ']') with
    | none => none
    | some i => some (p.1, ']' :: rest.take i, rest.drop (i + 1))
  | other =>
    match other.findIdx? (· == ']') with
    | none => none
    | some i => some (p.1, other.take i, other.drop (i + 1))

/-- Compile a glob pattern into tokens; `fuel` bounds the recursion and
is adequate whenever it is at least the pattern length, since every step
consumes at least one character. -/
def compileGlobAux : Nat → List Char → List GlobTok
  | 0, _ => []
  | _ + 1, [] => []
  | fuel + 1, '*' :: ps => GlobTok.star :: compileGlobAux fuel ps
  | fuel + 1, '?' :: ps => GlobTok.any1 :: compileGlobAux fuel ps
  | fuel + 1, '[' :: ps =>
    match parseSet ps with
    | none => GlobTok.lit '[' :: compileGlobAux fuel ps
    | some (neg, contents, rest) => GlobTok.set neg contents :: compileGlobAux fuel rest
  | fuel + 1, c :: ps => GlobTok.lit c :: compileGlobAux fuel ps

/-- Compile a glob pattern into its token sequence. -/
def compileGlob (pat : List Char) : List GlobTok :=
  compileGlobAux pat.length pat

/-- Parse raw set contents into items, forming a range whenever a `-`
stands between two characters (greedily, left to right); a `-` that is
first or last is a literal, as in `fnmatch.translate`. -/
def parseItems : List Char → List SetItem
  | lo :: '-' :: hi :: rest => SetItem.range lo hi :: parseItems rest
  | c :: rest => SetItem.ch c :: parseItems rest
  | [] => []

/-- Whether a single character satisfies one set item; ranges compare
code points inclusively, and an inverted range matches nothing. -/
def SetItem.matchesChar : SetItem → Char → Bool
  | SetItem.ch d, c => c == d
  | SetItem.range lo hi, c => lo ≤ c && c ≤ hi

/-- Match a compiled glob token sequence against a whole character list
(no substring search): `*` matches any (possibly empty) run, `?` any one
character, a set any one character it contains (negated by `!`). -/
def globMatchTok : List GlobTok → List Char → Bool
  | [], s => s.isEmpty
  | GlobTok.star :: ts, s => s.tails.any (fun t => globMatchTok ts t)
  | GlobTok.any1 :: _, [] => false
  | GlobTok.any1 :: ts, _ :: cs => globMatchTok ts cs
  | GlobTok.lit _ :: _, [] => false
  | GlobTok.lit c :: ts, d :: cs => c == d && globMatchTok ts cs
  | GlobTok.set _ _ :: _, [] => false
  | GlobTok.set neg contents :: ts, d :: cs =>
    (neg != (parseItems contents).any (fun it => SetItem.matchesChar it d)) &&
      globMatchTok ts cs

/-- Python `fnmatch.fnmatch(name, pat)` on a case-sensitive (POSIX)
filesystem: the whole pattern must match the whole name. -/
def fnmatch (name : String) (pat : String) : Bool :=
  globMatchTok (compileGlob pat.toList) name.toList

/-- The `MatcherOptions` dataclass: `source` is the rules-file name and
`extension` the optional extension filter (already past
`__post_init__`). -/
structure MatcherOptions where
  source : String
  extension : Option String
deriving DecidableEq, Repr

/-- Constructing `MatcherOptions(source, extension)`: `__post_init__`
prepends a `.` to a non-`None` extension that does not already start
with one (`f".{self.extension}"`). -/
def MatcherOptions.make (source : String) (extension : Option String) : MatcherOptions :=
  { source := source
    extension := extension.map fun ext =>
      if !(Py.startswith ext ".") then "." ++ ext else ext }

/-- The `Matcher` class: the options plus the loaded rule list. -/
structure Matcher where
  options : MatcherOptions
  rules : List String
deriving DecidableEq, Repr

/-- `Matcher.__init__(options, directory)`.  The filesystem read is
modelled by `content`: `some text` when `os.path.exists(directory /
options.source)` holds and the file reads as `text`, `none` when the
path does not exist.  The rules are the lines of the content that are
non-empty (Python truthiness) and do not start with `#`. -/
def Matcher.make (options : MatcherOptions) (content : Option String) : Matcher :=
  { options := options
    rules := match content with
      | some text =>
        (Py.splitlines text).filter fun rule =>
          !(rule == "") && !(Py.startswith rule "#")
      | none => [] }

/-- `Matcher.extension_matches(name)`: true if no extension is
configured or the name ends with the configured extension. -/
def Matcher.extension_matches (m : Matcher) (name : String) : Bool :=
  match m.options.extension with
  | none => true
  | some ext => Py.endswith name ext

/-- `Matcher.is_excluded(name)`: hidden-name check, then extension
check, then first matching rule (`for`/`else` loop). -/
def Matcher.is_excluded (m : Matcher) (name : String) : Bool :=
  if Py.startswith name "." then true
  else if !(m.extension_matches name) then true
  else m.rules.any fun rule => fnmatch name rule

/-- `Matcher.is_included(name) = not self.is_excluded(name)`. -/
def Matcher.is_included (m : Matcher) (name : String) : Bool :=
  !(m.is_excluded name)

/-- `Matcher.filter(items)`: the list comprehension
`[item for item in items if self.is_included(item)]`. -/
def Matcher.filter (m : Matcher) (items : List String) : List String :=
  items.filter fun item => m.is_included item

/-- The ways `os.scandir` can fail to list a directory (an `OSError`
propagated to the caller). -/
inductive DirectoryScanError where
  | notFound
  | notADirectory
  | permissionDenied
deriving DecidableEq, Repr

/-- `Matcher.scandir(path)`.  The `os.scandir` call is modelled by
`listing`: `Except.ok entries` carries the immediate entry names (files
and subdirectories alike, names only), `Except.error` the `OSError`
raised before any name is produced. -/
def Matcher.scandir (m : Matcher) (listing : Except DirectoryScanError (List String)) :
    Except DirectoryScanError (List String) :=
  match listing with
  | Except.error e => Except.error e
  | Except.ok entries => Except.ok (m.filter entries)

example : fnmatch "a.tmp" "*.tmp" = true := by decide
example : fnmatch "a.txt" "*.tmp" = false := by decide
example : fnmatch "build" "build" = true := by decide
example : fnmatch "xbuild" "build" = false := by decide
example : fnmatch "ab" "a?" = true := by decide
example : fnmatch "ac" "a[bc]" = true := by decide
example : fnmatch "ad" "a[bc]" = false := by decide
example : fnmatch "ad" "a[!bc]" = true := by decide
example : fnmatch "a[" "a[" = true := by decide
example : fnmatch "am" "a[a-z]" = true := by decide
example : Py.splitlines "# ignore drafts\n\ndraft*" = ["# ignore drafts", "", "draft*"] := by decide
example : Py.startswith ".a.md" "." = true := by decide
example : Py.endswith "a.MD" ".md" = false := by decide

/-- The Boolean rule-filtering predicate used by `Matcher.__init__`,
expressed as a proposition. -/
theorem rule_kept_iff (rule : String) :
    (!(rule == "") && !(Py.startswith rule "#")) = true ↔
      rule ≠ "" ∧ Py.startswith rule "#" = false := by
  simp [Bool.and_eq_true, Bool.not_eq_true']

/-- C1: `is_excluded(n)` is true iff `n` starts with `.`, or an
extension is configured that `n` does not end with (exact case-sensitive
suffix), or `n` matches some rule under whole-name shell-glob semantics;
and with extension `".md"` and an empty rule set,
`filter(["a.md", "a.MD", "b.txt", ".a.md"])` returns `["a.md"]`. -/
theorem is_excluded_characterization (m : Matcher) (n : String) :
    (m.is_excluded n = true ↔
      Py.startswith n "." = true ∨
      (∃ ext, m.options.extension = some ext ∧ Py.endswith n ext = false) ∨
      (∃ rule ∈ m.rules, fnmatch n rule = true)) ∧
    (Matcher.make (MatcherOptions.make "ignorefile" (some ".md")) none).filter
      ["a.md", "a.MD", "b.txt", ".a.md"] = ["a.md"] := by
  refine ⟨?_, by decide⟩
  unfold Matcher.is_excluded Matcher.extension_matches
  cases hext : m.options.extension with
  | none =>
    cases h1 : Py.startswith n "." <;> simp [List.any_eq_true]
  | some ext =>
    cases h1 : Py.startswith n "." <;>
      cases h2 : Py.endswith n ext <;>
        simp [List.any_eq_true, h2]

/-- C2: `filter` returns exactly the order-preserving subsequence of its
input on which `is_included` holds (characterized by its action on `[]`
and `::`, being a sublist, and membership), and with rules
`["*.tmp", "build"]` and no extension,
`filter(["a.txt", "a.tmp", "build", ".git", "README"])` returns
`["a.txt", "README"]`. -/
theorem filter_exact_subsequence (m : Matcher) (xs : List String) :
    m.filter [] = [] ∧
    (∀ x ys, m.filter (x :: ys) =
      if m.is_included x = true then x :: m.filter ys else m.filter ys) ∧
    (m.filter xs).Sublist xs ∧
    (∀ x, x ∈ m.filter xs ↔ x ∈ xs ∧ m.is_included x = true) ∧
    (Matcher.make (MatcherOptions.make "ignorefile" none) (some "*.tmp\nbuild")).filter
      ["a.txt", "a.tmp", "build", ".git", "README"] = ["a.txt", "README"] := by
  refine ⟨rfl, fun x ys => ?_, List.filter_sublist xs, fun x => ?_, by decide⟩
  · by_cases h : m.is_included x = true <;>
      simp [Matcher.filter, List.filter_cons, h]
  · simp [Matcher.filter, List.mem_filter]

/-- C3: the loader splits the rules-file content into lines, keeps (in
order, untrimmed) exactly the lines that are non-empty and do not start
with `#`; a file of a comment line, a blank line and `draft*` loads the
single pattern `draft*`, and a whitespace-only line survives as a
literal pattern. -/
theorem loader_keeps_noncomment_lines (opts : MatcherOptions) (content : String) :
    ((Matcher.make opts (some content)).rules).Sublist (Py.splitlines content) ∧
    (∀ l, l ∈ (Matcher.make opts (some content)).rules ↔
      l ∈ Py.splitlines content ∧ l ≠ "" ∧ Py.startswith l "#" = false) ∧
    (Matcher.make (MatcherOptions.make "ignorefile" none)
      (some "# ignore drafts\n\ndraft*")).rules = ["draft*"] ∧
    (Matcher.make (MatcherOptions.make "ignorefile" none)
      (some "#a\n  \n A* ")).rules = ["  ", " A* "] := by
  refine ⟨List.filter_sublist _, fun l => ?_, by decide, by decide⟩
  simp [Matcher.make, List.mem_filter, Bool.and_eq_true, Bool.not_eq_true']

/-- C4: any name whose first character is `.` is excluded, whatever the
rule set and extension configuration. -/
theorem hidden_name_always_excluded (m : Matcher) (n : String)
    (h : Py.startswith n "." = true) : m.is_excluded n = true := by
  unfold Matcher.is_excluded
  simp [h]

/-- Witness for C4 at a concrete hidden name and configuration. -/
theorem hidden_name_always_excluded_witness :
    Py.startswith ".git" "." = true ∧
    (Matcher.make (MatcherOptions.make "ignorefile" (some ".md"))
      (some "*.tmp")).is_excluded ".git" = true :=
  ⟨by decide, hidden_name_always_excluded _ ".git" (by decide)⟩

/-- C5: `is_included` is the exact Boolean negation of `is_excluded`,
with no third state. -/
theorem included_is_negation_of_excluded (m : Matcher) (n : String) :
    m.is_included n = !(m.is_excluded n) ∧
    (m.is_included n = true ↔ ¬(m.is_excluded n = true)) ∧
    (m.is_excluded n = true ∨ m.is_included n = true) := by
  refine ⟨rfl, ?_, ?_⟩
  · simp [Matcher.is_included]
  · cases h : m.is_excluded n with
    | false => exact Or.inr (by simp [Matcher.is_included, h])
    | true => exact Or.inl rfl

/-- C6: when the rules file does not exist, construction succeeds with
an empty rule set and `is_excluded` reduces to the hidden-name and
extension checks alone. -/
theorem missing_rules_file_empty_rules (opts : MatcherOptions) (n : String) :
    (Matcher.make opts none).rules = [] ∧
    (Matcher.make opts none).is_excluded n =
      (Py.startswith n "." || !((Matcher.make opts none).extension_matches n)) := by
  refine ⟨rfl, ?_⟩
  unfold Matcher.is_excluded
  cases h1 : Py.startswith n "." <;>
    cases h2 : (Matcher.make opts none).extension_matches n <;>
      simp [Matcher.make]

/-- C7: a non-`None` extension is normalized at construction to begin
with `.` — kept unchanged when it already starts with `.`, prefixed with
`.` otherwise — and a `None` extension stays `None`. -/
theorem extension_normalized_to_dot (src : String) (ext : String) :
    (MatcherOptions.make src none).extension = none ∧
    (Py.startswith ext "." = true →
      (MatcherOptions.make src (some ext)).extension = some ext) ∧
    (Py.startswith ext "." = false →
      (MatcherOptions.make src (some ext)).extension = some ("." ++ ext)) ∧
    (∃ e, (MatcherOptions.make src (some ext)).extension = some e ∧
      Py.startswith e "." = true) := by
  refine ⟨rfl, fun h => ?_, fun h => ?_, ?_⟩
  · simp [MatcherOptions.make, h]
  · simp [MatcherOptions.make, h]
  · cases h : Py.startswith ext "." with
    | true => exact ⟨ext, by simp [MatcherOptions.make, h], h⟩
    | false =>
      refine ⟨"." ++ ext, by simp [MatcherOptions.make, h], ?_⟩
      have h1 : ("." ++ ext).data = '.' :: ext.data := by
        rw [String.data_append]
        rfl
      show listIsPre ".".data ("." ++ ext).data = true
      rw [h1]
      rfl

/-- Witness for C7: the input `"md"` becomes `".md"`. -/
theorem extension_normalized_to_dot_witness :
    (MatcherOptions.make "ignorefile" (some "md")).extension = some ".md" := by
  have h := (extension_normalized_to_dot "ignorefile" "md").2.2.1 (by decide)
  simpa using h

/-- C8: `filter` is idempotent: filtering its own output changes
nothing. -/
theorem filter_idempotent (m : Matcher) (xs : List String) :
    m.filter (m.filter xs) = m.filter xs := by
  simp [Matcher.filter, List.filter_filter]

/-- C9: `scandir` applies `filter` uniformly to the entry names of a
successful listing, propagates a listing failure unchanged, and succeeds
exactly when the listing does (no partial success). -/
theorem scandir_filters_or_fails (m : Matcher) (entries : List String)
    (e : DirectoryScanError) :
    m.scandir (Except.ok entries) = Except.ok (m.filter entries) ∧
    m.scandir (Except.error e) = Except.error e ∧
    (∀ listing, (∃ ns, m.scandir listing = Except.ok ns) ↔
      ∃ es, listing = Except.ok es) := by
  refine ⟨rfl, rfl, fun listing => ?_⟩
  cases listing with
  | ok es => exact ⟨fun _ => ⟨es, rfl⟩, fun _ => ⟨m.filter es, rfl⟩⟩
  | error err => simp [Matcher.scandir]

/-- C10: the empty-string extension is normalized to `"."`, after which
any name not ending in a literal `.` fails `extension_matches` and is
excluded — `""` is not treated as "no extension filter". -/
theorem empty_extension_becomes_dot (src : String) (content : Option String) (n : String) :
    (MatcherOptions.make src (some "")).extension = some "." ∧
    (Py.endswith n "." = false →
      (Matcher.make (MatcherOptions.make src (some "")) content).extension_matches n = false ∧
      (Matcher.make (MatcherOptions.make src (some "")) content).is_excluded n = true) := by
  have hopt : (MatcherOptions.make src (some "")).extension = some "." := rfl
  have hmatch : (Matcher.make (MatcherOptions.make src (some "")) content).extension_matches n
      = Py.endswith n "." := rfl
  refine ⟨hopt, fun h => ⟨hmatch.trans h, ?_⟩⟩
  unfold Matcher.is_excluded
  rw [hmatch.trans h]
  simp

/-- Witness for C10 at a concrete name and configuration. -/
theorem empty_extension_becomes_dot_witness :
    Py.endswith "abc" "." = false ∧
    (Matcher.make (MatcherOptions.make "ignorefile" (some "")) none).is_excluded "abc" = true :=
  ⟨by decide, ((empty_extension_becomes_dot "ignorefile" none "abc").2 (by decide)).2⟩
